import Mathlib

/-!
Verification of the Game of Life implementation in `game.py`.

The grid is the numpy array `game_state` of shape `(n_cells_x, n_cells_y)`
holding integer cell values (0 = dead, 1 = live), indexed `game_state[x, y]`.
We embed it as a flat list in C (row-major) order: the cell `(x, y)` lives at
flat index `x * n_cells_y + y`.
-/

/-- The simulation grid: numpy array of shape `(n_cells_x, n_cells_y)` with
integer entries, flattened in C order (cell `(x,y)` at index `x * n_cells_y + y`). -/
structure Grid where
  n_cells_x : Nat
  n_cells_y : Nat
  cells : List Nat
deriving DecidableEq, Repr

/-- Reading `game_state[x, y]` for in-range coordinates; out-of-range reads
default to 0 (they only arise for ill-formed grids, which numpy rejects). -/
def Grid.get_cell (g : Grid) (x y : Nat) : Nat :=
  g.cells.getD (x * g.n_cells_y + y) 0

/-- Well-formedness: the flat cell list has exactly `n_cells_x * n_cells_y`
entries, the numpy shape invariant. -/
def Grid.WF (g : Grid) : Prop :=
  g.cells.length = g.n_cells_x * g.n_cells_y

/-- Python's `%` on an index with a positive modulus: `(a % m)` is in `[0, m)`;
`Int.emod` has the same convention, and the result is cast back to `Nat`. -/
def wrapIdx (a : Int) (m : Nat) : Nat :=
  (a % (m : Int)).toNat

/-- The eight `(dx, dy)` offsets visited by `get_neighbor_count`'s nested loops
(`dx` outer over `[-1, 0, 1]`, `dy` inner, skipping `(0, 0)`). -/
def neighbor_offsets : List (Int × Int) :=
  [(-1, -1), (-1, 0), (-1, 1), (0, -1), (0, 1), (1, -1), (1, 0), (1, 1)]

/-- Embeds `GameLogic.get_neighbor_count` (game.py:175-189): sums
`game_state[(x+dx) % n_cells_x, (y+dy) % n_cells_y]` over the eight offsets. -/
def get_neighbor_count (g : Grid) (x y : Nat) : Nat :=
  neighbor_offsets.foldl
    (fun acc d =>
      acc + g.get_cell (wrapIdx ((x : Int) + d.1) g.n_cells_x)
                       (wrapIdx ((y : Int) + d.2) g.n_cells_y)) 0

/-- The body of the update loop in `GameLogic.next_generation` (game.py:164-171):
the value written to `new_state[x, y]`, computed from the original `game_state`
only (live with count outside 2..3 dies, dead with count 3 is born, otherwise
the copied input value is kept). -/
def next_cell (g : Grid) (x y : Nat) : Nat :=
  if g.get_cell x y = 1 ∧ (get_neighbor_count g x y < 2 ∨ 3 < get_neighbor_count g x y) then 0
  else if g.get_cell x y = 0 ∧ get_neighbor_count g x y = 3 then 1
  else g.get_cell x y

/-- Embeds `GameLogic.next_generation` (game.py:160-173): `new_state`
starts as `np.copy(game_state)` and the nested loops then write
`new_state[x, y]` for every `x < n_cells_x`, `y < n_cells_y` from the rule on
the original grid; since every in-range index is written exactly once with a
value read from the input only, the result is the cols×rows array whose flat
entry `i = x * n_cells_y + y` is `next_cell` at `(x, y)`. -/
def next_generation (g : Grid) : Grid :=
  ⟨g.n_cells_x, g.n_cells_y,
   (List.range (g.n_cells_x * g.n_cells_y)).map
     fun i => next_cell g (i / g.n_cells_y) (i % g.n_cells_y)⟩

/-- Spec-side restatement of the neighbor rule: the NUMBER of live cells among
the 8 wrapped positions (the spec's words), to be compared with the source's
sum of cell values in `get_neighbor_count`. -/
def live_neighbor_count (g : Grid) (x y : Nat) : Nat :=
  (neighbor_offsets.filter
    (fun d => decide (g.get_cell (wrapIdx ((x : Int) + d.1) g.n_cells_x)
                                 (wrapIdx ((y : Int) + d.2) g.n_cells_y) = 1))).length

/-- 3×3 grid whose live cells are exactly {(1,0),(1,1),(1,2)} (vertical blinker). -/
def blinker_v : Grid := ⟨3, 3, [0, 0, 0, 1, 1, 1, 0, 0, 0]⟩

/-- 3×3 grid whose live cells are exactly {(0,1),(1,1),(2,1)} (horizontal blinker). -/
def blinker_h : Grid := ⟨3, 3, [0, 1, 0, 0, 1, 0, 0, 1, 0]⟩

/-- 3×3 grid with every cell live. -/
def all_live_3x3 : Grid := ⟨3, 3, [1, 1, 1, 1, 1, 1, 1, 1, 1]⟩

/-! ### Helper lemmas about the flat grid representation -/

theorem list_getD_01 (l : List Nat) (h : ∀ c ∈ l, c = 0 ∨ c = 1) (n : Nat) :
    l.getD n 0 = 0 ∨ l.getD n 0 = 1 := by
  by_cases hn : n < l.length
  · rw [List.getD_eq_getElem l 0 hn]
    exact h _ (l.getElem_mem hn)
  · left
    simp [List.getD, List.getElem?_eq_none (le_of_not_lt hn)]

theorem get_cell_01 (g : Grid) (h : ∀ c ∈ g.cells, c = 0 ∨ c = 1) (x y : Nat) :
    g.get_cell x y = 0 ∨ g.get_cell x y = 1 :=
  list_getD_01 g.cells h _

theorem flat_index_lt (nx ny x y : Nat) (hx : x < nx) (hy : y < ny) :
    x * ny + y < nx * ny := by
  calc x * ny + y < x * ny + ny := Nat.add_lt_add_left hy _
  _ = (x + 1) * ny := (Nat.succ_mul x ny).symm
  _ ≤ nx * ny := Nat.mul_le_mul_right ny hx

theorem flat_index_div (ny x y : Nat) (hy : y < ny) : (x * ny + y) / ny = x := by
  have hpos : 0 < ny := Nat.lt_of_le_of_lt (Nat.zero_le y) hy
  rw [Nat.mul_comm x ny, Nat.mul_add_div hpos, Nat.div_eq_of_lt hy, Nat.add_zero]

theorem flat_index_mod (ny x y : Nat) (hy : y < ny) : (x * ny + y) % ny = y := by
  rw [Nat.mul_comm x ny, Nat.mul_add_mod ny x y, Nat.mod_eq_of_lt hy]

theorem getD_map_range (n : Nat) (f : Nat → Nat) (i : Nat) (h : i < n) :
    ((List.range n).map f).getD i 0 = f i := by
  have hlen : i < ((List.range n).map f).length := by simp [h]
  rw [List.getD_eq_getElem _ 0 hlen]
  simp [List.getElem_map, List.getElem_range]

/-- The cell `(x, y)` of the freshly computed generation is exactly the rule
value `next_cell` evaluated on the input grid. -/
theorem get_cell_next_generation (g : Grid) (x y : Nat)
    (hx : x < g.n_cells_x) (hy : y < g.n_cells_y) :
    (next_generation g).get_cell x y = next_cell g x y := by
  have hidx := flat_index_lt g.n_cells_x g.n_cells_y x y hx hy
  show ((List.range (g.n_cells_x * g.n_cells_y)).map
      fun i => next_cell g (i / g.n_cells_y) (i % g.n_cells_y)).getD
        (x * g.n_cells_y + y) 0 = next_cell g x y
  rw [getD_map_range _ _ _ hidx, flat_index_div _ _ _ hy, flat_index_mod _ _ _ hy]

/-- A fold summing a 0/1-valued function over a list counts the elements where
the function is 1. -/
theorem foldl_add_eq_filter_length (f : Int × Int → Nat) (l : List (Int × Int))
    (h : ∀ d ∈ l, f d = 0 ∨ f d = 1) (acc : Nat) :
    l.foldl (fun a d => a + f d) acc
      = acc + (l.filter fun d => decide (f d = 1)).length := by
  induction l generalizing acc with
  | nil => simp
  | cons a t ih =>
    have ha := h a (by simp)
    have ht : ∀ d ∈ t, f d = 0 ∨ f d = 1 := fun d hd => h d (by simp [hd])
    rcases ha with ha | ha
    · simp only [List.foldl_cons, List.filter_cons, ha]
      rw [ih ht]
      simp
    · simp only [List.foldl_cons, List.filter_cons, ha]
      rw [ih ht]
      simp
      omega

/-- On a 0/1 grid the source's sum of neighbor values is the number of live
neighbors among the 8 wrapped positions. -/
theorem neighbor_sum_eq_live_count (g : Grid) (x y : Nat)
    (h01 : ∀ c ∈ g.cells, c = 0 ∨ c = 1) :
    get_neighbor_count g x y = live_neighbor_count g x y := by
  have h := foldl_add_eq_filter_length
    (fun d => g.get_cell (wrapIdx ((x : Int) + d.1) g.n_cells_x)
                         (wrapIdx ((y : Int) + d.2) g.n_cells_y))
    neighbor_offsets (fun d _ => get_cell_01 g h01 _ _) 0
  simpa [get_neighbor_count, live_neighbor_count] using h

/-- Python's `(-1) % m` is `m - 1` for a positive modulus. -/
theorem wrapIdx_neg_one (m : Nat) (h : 0 < m) : wrapIdx (-1) m = m - 1 := by
  unfold wrapIdx
  have h1 : ((-1 : Int) % (m : Int)) = (m : Int) - 1 := by
    have he : (-1 : Int) = ((m : Int) - 1) + (m : Int) * (-1) := by ring
    rw [he, Int.add_mul_emod_self_left]
    have hm : (1 : Int) ≤ (m : Int) := by exact_mod_cast h
    exact Int.emod_eq_of_lt (by omega) (by omega)
  rw [h1]
  omega

/-! ### Claim theorems: generation rule -/

/-- C1: for every 0/1 grid and every in-range cell `(x,y)`,
`GameLogic.next_generation` sets the output cell by the Conway rule evaluated
on the input grid only: a live cell with live-neighbor count < 2 or > 3 is
dead, a live cell with count 2 or 3 is live, a dead cell with count exactly 3
is live, and every other dead cell stays dead; the output is a fresh grid, so
each output cell is a function of the input grid alone. -/
theorem next_generation_conway_rule (g : Grid) (x y : Nat)
    (h01 : ∀ c ∈ g.cells, c = 0 ∨ c = 1)
    (hx : x < g.n_cells_x) (hy : y < g.n_cells_y) :
    (g.get_cell x y = 1 →
       (live_neighbor_count g x y < 2 ∨ 3 < live_neighbor_count g x y) →
       (next_generation g).get_cell x y = 0) ∧
    (g.get_cell x y = 1 →
       (live_neighbor_count g x y = 2 ∨ live_neighbor_count g x y = 3) →
       (next_generation g).get_cell x y = 1) ∧
    (g.get_cell x y = 0 → live_neighbor_count g x y = 3 →
       (next_generation g).get_cell x y = 1) ∧
    (g.get_cell x y = 0 → live_neighbor_count g x y ≠ 3 →
       (next_generation g).get_cell x y = 0) := by
  have hcnt := neighbor_sum_eq_live_count g x y h01
  have hget := get_cell_next_generation g x y hx hy
  rw [hget]
  unfold next_cell
  rw [hcnt]
  refine ⟨?_, ?_, ?_, ?_⟩ <;> intro hc hn <;> split_ifs with h1 h2 <;> omega

/-- Witness for C1 at the vertical blinker: cell (1,1) is live with 2 live
neighbors, so it survives. -/
theorem next_generation_conway_rule_witness :
    (next_generation blinker_v).get_cell 1 1 = 1 :=
  (next_generation_conway_rule blinker_v 1 1 (by decide) (by decide)
    (by decide)).2.1 (by decide) (by decide)

/-- 3×3 grid with a single live cell in the corner `(2,2)`. -/
def corner_grid : Grid := ⟨3, 3, [0, 0, 0, 0, 0, 0, 0, 0, 1]⟩

/-- C2: `GameLogic.get_neighbor_count` equals the number of live cells among
the 8 toroidally wrapped positions `((x+dx) mod cols, (y+dy) mod rows)`,
`dx,dy ∈ {-1,0,1}` minus `(0,0)`; in particular a live cell at
`(cols-1, rows-1)` is counted as a neighbor of `(0,0)`. -/
theorem get_neighbor_count_spec (g : Grid) (x y : Nat)
    (h01 : ∀ c ∈ g.cells, c = 0 ∨ c = 1) :
    get_neighbor_count g x y = live_neighbor_count g x y ∧
    (0 < g.n_cells_x → 0 < g.n_cells_y →
      g.get_cell (g.n_cells_x - 1) (g.n_cells_y - 1) = 1 →
      1 ≤ get_neighbor_count g 0 0) := by
  refine ⟨neighbor_sum_eq_live_count g x y h01, ?_⟩
  intro hx hy hlive
  have ex : wrapIdx ((0 : Nat) + (-1 : Int)) g.n_cells_x = g.n_cells_x - 1 := by
    rw [show ((0 : Nat) : Int) + (-1 : Int) = -1 by ring]
    exact wrapIdx_neg_one _ hx
  have ey : wrapIdx ((0 : Nat) + (-1 : Int)) g.n_cells_y = g.n_cells_y - 1 := by
    rw [show ((0 : Nat) : Int) + (-1 : Int) = -1 by ring]
    exact wrapIdx_neg_one _ hy
  simp only [get_neighbor_count, neighbor_offsets, List.foldl_cons, List.foldl_nil]
  rw [ex, ey, hlive]
  omega

/-- Witness for C2 on a 3×3 grid with only corner `(2,2)` live: the sum equals
the live count, and the corner is seen as a neighbor of `(0,0)`. -/
theorem get_neighbor_count_spec_witness :
    get_neighbor_count corner_grid 0 0 = live_neighbor_count corner_grid 0 0 ∧
    1 ≤ get_neighbor_count corner_grid 0 0 :=
  ⟨(get_neighbor_count_spec corner_grid 0 0 (by decide)).1,
   (get_neighbor_count_spec corner_grid 0 0 (by decide)).2
     (by decide) (by decide) (by decide)⟩

/-- C3 counterexample: one generation of the 3×3 vertical blinker is NOT the
horizontal blinker — on the 3×3 torus the cell `(0,0)` (dead, with the whole
live column 1 among its wrapped neighbors, count 3) becomes live. -/
theorem blinker_not_horizontal_counterexample :
    next_generation blinker_v ≠ blinker_h ∧
    (next_generation blinker_v).get_cell 0 0 = 1 := by
  constructor
  · decide
  · decide

/-- C3 amended: on the 3×3 torus every cell of the vertical blinker grid has
exactly 2 or 3 live neighbors, so one application of
`GameLogic.next_generation` yields the fully live 3×3 grid. -/
theorem blinker_becomes_all_live : next_generation blinker_v = all_live_3x3 := by
  decide

/-! ### Persistence (save / load) -/

/-- Error taxonomy from the spec: out-of-bounds cell access (numpy IndexError),
missing save file (FileNotFoundError), unparseable save data. -/
inductive GameErr
  | outOfBounds
  | notFound
  | corruptData
deriving DecidableEq, Repr

/-- Modelled from the spec: `GameStateSaver.save_game_state` (game.py:200-204)
writes `pickle.dump(game_state, file)`; the pickle byte format itself is
library code absent from the source, modelled per the spec's SerializedSnapshot
as the dimensions followed by the cell-value sequence. -/
def save_game_state (g : Grid) : List Nat :=
  g.n_cells_x :: g.n_cells_y :: g.cells

/-- Modelled from the spec: the `pickle.load` half of
`GameStateLoader.load_game_state` (game.py:206-210); parsing the
SerializedSnapshot blob back into a grid, rejecting blobs that do not carry a
dimensionally consistent cell array. -/
def parse_game_state (bs : List Nat) : Except GameErr Grid :=
  match bs with
  | nx :: ny :: cells =>
      if cells.length = nx * ny then .ok ⟨nx, ny, cells⟩ else .error .corruptData
  | _ => .error .corruptData

/-- Embeds `GameStateLoader.load_game_state` (game.py:206-210): `open(filename,
'rb')` raises FileNotFoundError when the file is absent (`none`), otherwise the
contents are unpickled; the file system is the optional content of the single
save file `saved_game_state.pkl`. -/
def load_game_state (file : Option (List Nat)) : Except GameErr Grid :=
  match file with
  | none => .error .notFound
  | some bs => parse_game_state bs

/-- C4: saving any well-formed grid and loading the result reproduces the grid
exactly — dimensions and every cell value (lossless round trip). -/
theorem save_load_roundtrip (g : Grid) (h : g.WF) :
    load_game_state (some (save_game_state g)) = .ok g := by
  have hlen : g.cells.length = g.n_cells_x * g.n_cells_y := h
  simp [load_game_state, save_game_state, parse_game_state, hlen]

/-- Witness for C4 at the vertical blinker and at the 0×0 grid. -/
theorem save_load_roundtrip_witness :
    load_game_state (some (save_game_state blinker_v)) = .ok blinker_v ∧
    load_game_state (some (save_game_state ⟨0, 0, []⟩)) = .ok ⟨0, 0, []⟩ :=
  ⟨save_load_roundtrip blinker_v (by rfl), save_load_roundtrip ⟨0, 0, []⟩ (by rfl)⟩

/-! ### Simulation clock -/

/-- Embeds the tick decision of `SimulationRunner.run_simulation`
(game.py:271-275): when not paused and `current_time - last_tick_time >
tick_interval * 1000` the generation advances and `last_tick_time` is set to
`current_time`; returns (fired?, new `last_tick_time`).  `tick_interval * 1000`
is taken as the millisecond threshold (800 for the configured 0.8 s). -/
def tick_step (paused : Bool) (last_tick_time tick_interval_ms current_time : Nat) :
    Bool × Nat :=
  if paused = false then
    if tick_interval_ms < current_time - last_tick_time then (true, current_time)
    else (false, last_tick_time)
  else (false, last_tick_time)

/-- C5 counterexample: at `now - lastTickTimestamp` exactly equal to the
interval (800 ms) and not paused, the claim predicts a tick, but the source's
strict `>` comparison does not fire. -/
theorem tick_boundary_counterexample :
    ¬(((tick_step false 0 800 800).1 = true) ↔ (false = false ∧ 800 ≤ 800 - 0)) := by
  decide

/-- C5 amended: a tick fires iff `paused = false` and `now - lastTickTimestamp`
STRICTLY exceeds the interval; firing sets `lastTickTimestamp = now`, and a
non-firing iteration leaves it unchanged. -/
theorem tick_fires_strict (paused : Bool) (last interval now : Nat) :
    ((tick_step paused last interval now).1 = true ↔
       (paused = false ∧ interval < now - last)) ∧
    ((tick_step paused last interval now).1 = true →
       (tick_step paused last interval now).2 = now) ∧
    ((tick_step paused last interval now).1 = false →
       (tick_step paused last interval now).2 = last) := by
  unfold tick_step
  split_ifs <;> simp_all

/-- Witness for C5's amended statement: 1000 ms after a tick with an 800 ms
interval, unpaused, the tick fires and the timestamp resets to 1000. -/
theorem tick_fires_strict_witness : (tick_step false 0 800 1000).2 = 1000 :=
  (tick_fires_strict false 0 800 1000).2.1
    ((tick_fires_strict false 0 800 1000).1.mpr (by decide))

/-! ### Cell toggling from mouse input -/

/-- The grid written by the toggle `game_state[x, y] = not game_state[x, y]`:
Python's `not` maps 0 to True (stored as 1) and any nonzero value to False
(stored as 0). -/
def toggled_grid (g : Grid) (x y : Nat) : Grid :=
  ⟨g.n_cells_x, g.n_cells_y,
   g.cells.set (x * g.n_cells_y + y) (if g.get_cell x y = 0 then 1 else 0)⟩

/-- Embeds the single-cell toggle `game_state[x, y] = not game_state[x, y]`
(game.py:236) under numpy indexing semantics for non-negative indices: the
write happens iff `x < n_cells_x` and `y < n_cells_y`, otherwise numpy raises
IndexError (the out-of-bounds failure) without touching the array. -/
def toggle_cell (g : Grid) (x y : Nat) : Except GameErr Grid :=
  if x < g.n_cells_x ∧ y < g.n_cells_y then .ok (toggled_grid g x y)
  else .error .outOfBounds

/-- Embeds the coordinate derivation of `EventHandler.handle_mouse_click`
(game.py:233-236): `x, y = pos[0] // cell_width, pos[1] // cell_height`
followed by the toggle. -/
def mouse_toggle (g : Grid) (cell_width cell_height px py : Nat) :
    Except GameErr Grid :=
  toggle_cell g (px / cell_width) (py / cell_height)

theorem getD_set_self (l : List Nat) (i v : Nat) (h : i < l.length) :
    (l.set i v).getD i 0 = v := by
  have hlen : i < (l.set i v).length := by simpa using h
  rw [List.getD_eq_getElem _ 0 hlen]
  exact List.getElem_set_self hlen

theorem getD_set_ne (l : List Nat) (i j v : Nat) (h : i ≠ j) :
    (l.set i v).getD j 0 = l.getD j 0 := by
  by_cases hj : j < l.length
  · have hj' : j < (l.set i v).length := by simpa using hj
    rw [List.getD_eq_getElem _ 0 hj', List.getD_eq_getElem _ 0 hj]
    exact List.getElem_set_ne h hj'
  · have hle : l.length ≤ j := le_of_not_lt hj
    have hle' : (l.set i v).length ≤ j := by simpa using hle
    have h1 : (l.set i v).getD j 0 = 0 := by
      simp [List.getD, List.getElem?_eq_none hle']
    have h2 : l.getD j 0 = 0 := by
      simp [List.getD, List.getElem?_eq_none hle]
    rw [h1, h2]

/-- Distinct in-range cell coordinates have distinct flat indices. -/
theorem flat_index_inj (ny x y x' y' : Nat) (hy : y < ny) (hy' : y' < ny)
    (h : x * ny + y = x' * ny + y') : x = x' ∧ y = y' := by
  have h1 : x = x' := by
    have := congrArg (fun t => t / ny) h
    simpa [flat_index_div ny x y hy, flat_index_div ny x' y' hy'] using this
  subst h1
  exact ⟨rfl, by omega⟩

/-- C8: toggling an in-range cell of a well-formed 0/1 grid succeeds, inverts
exactly that cell, and leaves the dimensions and every other cell unchanged. -/
theorem toggle_cell_flips_exactly_one (g : Grid) (x y : Nat) (hwf : g.WF)
    (hx : x < g.n_cells_x) (hy : y < g.n_cells_y)
    (h01 : g.get_cell x y = 0 ∨ g.get_cell x y = 1) :
    toggle_cell g x y = .ok (toggled_grid g x y) ∧
    (toggled_grid g x y).n_cells_x = g.n_cells_x ∧
    (toggled_grid g x y).n_cells_y = g.n_cells_y ∧
    (toggled_grid g x y).get_cell x y = 1 - g.get_cell x y ∧
    (∀ x' y', x' < g.n_cells_x → y' < g.n_cells_y → ¬(x' = x ∧ y' = y) →
      (toggled_grid g x y).get_cell x' y' = g.get_cell x' y') := by
  have hidx : x * g.n_cells_y + y < g.cells.length := by
    rw [hwf]; exact flat_index_lt _ _ _ _ hx hy
  refine ⟨by simp [toggle_cell, hx, hy], rfl, rfl, ?_, ?_⟩
  · show (g.cells.set (x * g.n_cells_y + y) _).getD (x * g.n_cells_y + y) 0
        = 1 - g.get_cell x y
    rw [getD_set_self _ _ _ hidx]
    rcases h01 with h | h <;> simp [h]
  · intro x' y' hx' hy' hne
    show (g.cells.set (x * g.n_cells_y + y) _).getD (x' * g.n_cells_y + y') 0
        = g.get_cell x' y'
    rw [getD_set_ne]
    · rfl
    · intro hcontra
      have hinj := flat_index_inj g.n_cells_y x y x' y' hy hy' hcontra
      exact hne ⟨hinj.1.symm, hinj.2.symm⟩

/-- Witness for C8: toggling `(0,0)` of the vertical blinker turns the dead
corner live and leaves `(1,1)` untouched. -/
theorem toggle_cell_flips_exactly_one_witness :
    toggle_cell blinker_v 0 0 = .ok (toggled_grid blinker_v 0 0) ∧
    (toggled_grid blinker_v 0 0).get_cell 0 0 = 1 - blinker_v.get_cell 0 0 ∧
    (toggled_grid blinker_v 0 0).get_cell 1 1 = blinker_v.get_cell 1 1 :=
  ⟨(toggle_cell_flips_exactly_one blinker_v 0 0 (by rfl) (by decide) (by decide)
      (by decide)).1,
   (toggle_cell_flips_exactly_one blinker_v 0 0 (by rfl) (by decide) (by decide)
      (by decide)).2.2.2.1,
   (toggle_cell_flips_exactly_one blinker_v 0 0 (by rfl) (by decide) (by decide)
      (by decide)).2.2.2.2 1 1 (by decide) (by decide) (by decide)⟩

/-- C7: whenever the pointer-derived coordinates fall outside the grid on
either axis, the toggle fails with the out-of-bounds error instead of writing
any cell (numpy's bounds check precedes element access). -/
theorem mouse_toggle_out_of_bounds (g : Grid) (cell_width cell_height px py : Nat)
    (h : g.n_cells_x ≤ px / cell_width ∨ g.n_cells_y ≤ py / cell_height) :
    mouse_toggle g cell_width cell_height px py = .error .outOfBounds := by
  unfold mouse_toggle toggle_cell
  rw [if_neg]
  intro hcontra
  rcases h with h | h
  · exact absurd hcontra.1 (not_lt_of_le h)
  · exact absurd hcontra.2 (not_lt_of_le h)

/-- Witness for C7 with the program's real geometry: a 900-px-wide window over
40 columns gives 22-px cells, so a click at pixel column 880 derives `x = 40`,
one past the last column — the toggle is rejected (here on the 3×3 demo grid:
any x ≥ 3 is out of range). -/
theorem mouse_toggle_out_of_bounds_witness :
    mouse_toggle blinker_v 22 20 880 0 = .error .outOfBounds :=
  mouse_toggle_out_of_bounds blinker_v 22 20 880 0 (by decide)

/-! ### Event handling and the main loop -/

/-- The keys `EventHandler.handle_key_press` and the instructions screen react
to: space (pause toggle), `s` (save), `l` (load), return (proceed past the
instructions), anything else. -/
inductive Key
  | space
  | s
  | l
  | ret
  | other
deriving DecidableEq, Repr

/-- The pygame events the source dispatches on: QUIT, MOUSEBUTTONDOWN with a
pixel position, KEYDOWN, MOUSEBUTTONUP with a pixel position. -/
inductive Event
  | quit
  | mouseDown (px py : Nat)
  | keyDown (k : Key)
  | mouseUp (px py : Nat)
deriving DecidableEq, Repr

/-- The mutable simulation state of the `GameOfLife` instance plus the loop
locals of `run_simulation`: grid, paused flag, last tick time, the contents of
`saved_game_state.pkl` (None while absent), the `showing_instructions` and
`running` flags. -/
structure LoopState where
  grid : Grid
  paused : Bool
  last_tick_time : Nat
  save_file : Option (List Nat)
  showing_instructions : Bool
  running : Bool
deriving DecidableEq, Repr

/-- The fixed geometry and timing configuration: cell pixel sizes, the
Next Generation button rectangle, and the tick interval in ms. -/
structure Config where
  cell_width : Nat
  cell_height : Nat
  button_x : Nat
  button_y : Nat
  button_width : Nat
  button_height : Nat
  tick_interval_ms : Nat
deriving DecidableEq, Repr

/-- Embeds `EventHandler.handle_key_press` (game.py:238-246): space toggles
`paused`, `s` pickles the grid into the save file, `l` loads it (the
FileNotFoundError / unpickling failure propagates as an uncaught exception,
i.e. an `error` result); other keys do nothing. -/
def handle_key_press (st : LoopState) (k : Key) : Except GameErr LoopState :=
  match k with
  | .space => .ok {st with paused := !st.paused}
  | .s => .ok {st with save_file := some (save_game_state st.grid)}
  | .l =>
      match load_game_state st.save_file with
      | .ok g => .ok {st with grid := g}
      | .error e => .error e
  | _ => .ok st

/-- Embeds `EventHandler.handle_mouse_click` (game.py:233-236): derive cell
coordinates from the pixel position and toggle; an IndexError propagates. -/
def handle_mouse_click (cfg : Config) (st : LoopState) (px py : Nat) :
    Except GameErr LoopState :=
  match mouse_toggle st.grid cfg.cell_width cfg.cell_height px py with
  | .ok g => .ok {st with grid := g}
  | .error e => .error e

/-- `pygame.Rect.collidepoint`: inside the button rectangle, right and bottom
edges exclusive. -/
def collidepoint (cfg : Config) (px py : Nat) : Bool :=
  decide (cfg.button_x ≤ px) && decide (px < cfg.button_x + cfg.button_width) &&
  decide (cfg.button_y ≤ py) && decide (py < cfg.button_y + cfg.button_height)

/-- Embeds `EventHandler.handle_button_click` (game.py:226-231): a mouse-up
inside the button rectangle advances one generation. -/
def handle_button_click (cfg : Config) (st : LoopState) (px py : Nat) : LoopState :=
  if collidepoint cfg px py then {st with grid := next_generation st.grid} else st

/-- Embeds `EventHandler.handle_events` (game.py:212-224): events are applied
in order; QUIT returns False immediately (remaining events dropped, modelled
by setting `running := false`); an exception raised by a handler propagates. -/
def handle_events (cfg : Config) (st : LoopState) :
    List Event → Except GameErr LoopState
  | [] => .ok st
  | Event.quit :: _ => .ok {st with running := false}
  | Event.mouseDown px py :: rest => do
      let st2 ← handle_mouse_click cfg st px py
      handle_events cfg st2 rest
  | Event.keyDown k :: rest => do
      let st2 ← handle_key_press st k
      handle_events cfg st2 rest
  | Event.mouseUp px py :: rest =>
      handle_events cfg (handle_button_click cfg st px py) rest

/-- Whether an event is the KEYDOWN of the return key, the only event the
instructions screen reacts to. -/
def is_return_key : Event → Bool
  | Event.keyDown Key.ret => true
  | _ => false

/-- Embeds one iteration of the `while running` loop of
`SimulationRunner.run_simulation` (game.py:254-277), rendering calls omitted.
`instr_events` is the queue pending at the instructions branch's
`pygame.event.get()` (drained, with only RETURN acted on, and only when
`showing_instructions` is true); `handler_events` are the events arriving
before the `handle_events` poll, which runs every iteration.  When the
instructions branch does not poll, its pending events flow to `handle_events`.
After event handling the tick check of lines 271-275 runs unconditionally. -/
def run_simulation_step (cfg : Config) (st : LoopState)
    (instr_events handler_events : List Event) (current_time : Nat) :
    Except GameErr LoopState :=
  let st1 := if st.showing_instructions
    then {st with showing_instructions := !(instr_events.any is_return_key)}
    else st
  let pending := if st.showing_instructions then handler_events
    else instr_events ++ handler_events
  do
    let st2 ← handle_events cfg st1 pending
    let r := tick_step st2.paused st2.last_tick_time cfg.tick_interval_ms current_time
    .ok (if r.1 then {st2 with grid := next_generation st2.grid, last_tick_time := r.2}
         else {st2 with last_tick_time := r.2})

/-- The program's configuration from `__main__` (game.py:282-287): 900×600
window, 40×30 cells (22×20-px cells), button 200×50 at (350, 540), tick
interval 0.8 s = 800 ms. -/
def demo_cfg : Config := ⟨22, 20, 350, 540, 200, 50, 800⟩

/-- A running, unpaused state on the blinker grid with no save file. -/
def demo_state : LoopState := ⟨blinker_v, false, 0, none, false, true⟩

/-- Same state but with an unparseable save file on disk. -/
def demo_state_corrupt : LoopState := ⟨blinker_v, false, 0, some [1, 2, 3], false, true⟩

/-- `demo_state` during the instructions screen. -/
def instr_state : LoopState := ⟨blinker_v, false, 0, none, true, true⟩

/-- C6 counterexample: with no save file, pressing `l` makes the load fail
with the NotFound error, and the error propagates uncaught through the event
handler and the main-loop iteration (the program crashes) — it is NOT the
claimed non-fatal no-op or message. -/
theorem load_missing_file_fatal_counterexample :
    handle_key_press demo_state Key.l = .error .notFound ∧
    run_simulation_step demo_cfg demo_state [] [Event.keyDown Key.l] 0
      = .error .notFound := by
  constructor
  · rfl
  · rfl

/-- C6 amended: a load with no save file raises the NotFound error and a load
of unparseable data raises the CorruptData error; neither is handled anywhere
in the program, so both abort the simulation loop (fatal), and in both cases
the in-memory grid is untouched because the assignment to `game_state` only
happens on success. -/
theorem load_errors_propagate (st : LoopState) :
    (st.save_file = none → handle_key_press st Key.l = .error .notFound) ∧
    (∀ bs, st.save_file = some bs → parse_game_state bs = .error .corruptData →
       handle_key_press st Key.l = .error .corruptData) := by
  constructor
  · intro h
    simp [handle_key_press, load_game_state, h]
  · intro bs h hparse
    simp [handle_key_press, load_game_state, h, hparse]

/-- Witness for C6's amended statement at the demo states: missing file gives
NotFound, the 3-byte blob `[1, 2, 3]` (claims 1×2 cells but carries one) gives
CorruptData. -/
theorem load_errors_propagate_witness :
    handle_key_press demo_state Key.l = .error .notFound ∧
    handle_key_press demo_state_corrupt Key.l = .error .corruptData :=
  ⟨(load_errors_propagate demo_state).1 rfl,
   (load_errors_propagate demo_state_corrupt).2 [1, 2, 3] rfl (by rfl)⟩

/-- C9 counterexample: in the instructions sub-state, with NO input at all (so
certainly no proceed key), one loop iteration at 1000 ms still advances the
generation — the blinker grid becomes the all-live grid while
`showing_instructions` remains true.  The gate does not block the simulation. -/
theorem instructions_gate_counterexample :
    run_simulation_step demo_cfg instr_state [] [] 1000 =
      .ok {instr_state with grid := all_live_3x3, last_tick_time := 1000} ∧
    all_live_3x3 ≠ blinker_v := by
  constructor
  · rfl
  · decide

/-- C9 amended: the instructions sub-state gates only rendering and its own
event poll (where only RETURN is inspected and other drained events are
discarded); `handle_events` still runs every iteration, and the automatic tick
still fires and advances the generation while the instructions are showing. -/
theorem instructions_do_not_gate_tick (cfg : Config) (st : LoopState) (now : Nat)
    (hshow : st.showing_instructions = true) (hp : st.paused = false)
    (hdue : cfg.tick_interval_ms < now - st.last_tick_time) :
    run_simulation_step cfg st [] [] now =
      .ok {st with grid := next_generation st.grid, last_tick_time := now} := by
  obtain ⟨g, p, lt, sf, si, r⟩ := st
  simp only at hshow hp hdue
  subst hshow
  subst hp
  simp [run_simulation_step, handle_events, tick_step, Bind.bind, Except.bind,
    hdue, is_return_key]

/-- Witness for C9's amended statement at the demo configuration. -/
theorem instructions_do_not_gate_tick_witness :
    run_simulation_step demo_cfg instr_state [] [] 1000 =
      .ok {instr_state with grid := next_generation instr_state.grid, last_tick_time := 1000} :=
  instructions_do_not_gate_tick demo_cfg instr_state 1000 rfl rfl (by decide)

/-! ### Grid invariants under initialization and iteration -/

/-- Embeds `GridInitializer.initialize_grid` (game.py:127-130):
`np.random.choice([0, 1], size=(nx, ny), p=[1-p, p])` fills the nx×ny array
with samples drawn from the two-element list `[0, 1]`; the random stream is
abstracted as a boolean draw per cell (True selects 1 with probability `p`),
so every produced value is 0 or 1 by construction of `choice`. -/
def initialize_grid (nx ny : Nat) (draw : Nat → Nat → Bool) : Grid :=
  ⟨nx, ny, (List.range (nx * ny)).map fun i => if draw (i / ny) (i % ny) then 1 else 0⟩

/-- `n` successive generation updates. -/
def iterate_generations : Nat → Grid → Grid
  | 0, g => g
  | n + 1, g => iterate_generations n (next_generation g)

theorem next_generation_cells_01 (g : Grid) (h01 : ∀ c ∈ g.cells, c = 0 ∨ c = 1) :
    ∀ c ∈ (next_generation g).cells, c = 0 ∨ c = 1 := by
  intro c hc
  simp only [next_generation, List.mem_map, List.mem_range] at hc
  obtain ⟨i, _, rfl⟩ := hc
  unfold next_cell
  split_ifs with h1 h2
  · left
    rfl
  · right
    rfl
  · exact get_cell_01 g h01 _ _

theorem initialize_grid_cells_01 (nx ny : Nat) (draw : Nat → Nat → Bool) :
    ∀ c ∈ (initialize_grid nx ny draw).cells, c = 0 ∨ c = 1 := by
  intro c hc
  simp only [initialize_grid, List.mem_map, List.mem_range] at hc
  obtain ⟨i, _, rfl⟩ := hc
  split_ifs
  · right
    rfl
  · left
    rfl

theorem iterate_generations_cells_01 (n : Nat) (g : Grid)
    (h01 : ∀ c ∈ g.cells, c = 0 ∨ c = 1) :
    ∀ c ∈ (iterate_generations n g).cells, c = 0 ∨ c = 1 := by
  induction n generalizing g with
  | zero => exact h01
  | succ m ih => exact ih (next_generation g) (next_generation_cells_01 g h01)

/-- C10: the generation update preserves the grid's dimensions; it maps 0/1
grids to 0/1 grids; and any number of generation updates applied to a randomly
initialized grid yields a grid whose every cell is 0 or 1. -/
theorem next_generation_invariants :
    (∀ g : Grid, (next_generation g).n_cells_x = g.n_cells_x ∧
       (next_generation g).n_cells_y = g.n_cells_y) ∧
    (∀ g : Grid, (∀ c ∈ g.cells, c = 0 ∨ c = 1) →
       ∀ c ∈ (next_generation g).cells, c = 0 ∨ c = 1) ∧
    (∀ (nx ny : Nat) (draw : Nat → Nat → Bool) (n : Nat),
       ∀ c ∈ (iterate_generations n (initialize_grid nx ny draw)).cells,
         c = 0 ∨ c = 1) :=
  ⟨fun _ => ⟨rfl, rfl⟩,
   next_generation_cells_01,
   fun nx ny draw n =>
     iterate_generations_cells_01 n _ (initialize_grid_cells_01 nx ny draw)⟩

/-- Witness for C10 at the vertical blinker: the update keeps the 3×3 shape,
and the concrete live value 1 found in the new generation is indeed 0-or-1. -/
theorem next_generation_invariants_witness :
    (next_generation blinker_v).n_cells_x = blinker_v.n_cells_x ∧
    ((1 : Nat) = 0 ∨ (1 : Nat) = 1) :=
  ⟨(next_generation_invariants.1 blinker_v).1,
   next_generation_invariants.2.1 blinker_v (by decide) 1 (by decide)⟩
